import Mathlib

/-!
Verification development for the YoutubeShortsAutomation batch pipeline
(`src/youtube_automation/processor.py`, `src/youtube_automation/api/youtube_api.py`,
`src/youtube_automation/utils/helpers.py`).

The Python code is shallowly embedded: pure string/arithmetic logic is
translated directly; external collaborators (yt-dlp, the YouTube API client,
cv2, moviepy, the filesystem, streamlit UI calls) are modelled as explicit
function parameters; datetimes are modelled as rational numbers counting hours
in the fixed US/Eastern zone; Python `re` with the restricted pattern language
produced by `pattern.replace('{#}', r'(\d+)')` is modelled by a small matcher
over literal / dot / digit-run tokens, with any other regex metacharacter
treated as the compile-failure case that the code catches and turns into `[]`.
-/

/-! ## Pattern extraction (`extract_pattern_match`, processor.py lines 13-40) -/

/-- Token alphabet of the compiled search pattern: a literal character,
the regex `.` metacharacter, or the digit-run `(\d+)` produced from the
two-character wildcard token. -/
inductive RTok where
  | lit (c : Char)
  | dot
  | digitRun
deriving DecidableEq

/-- Regex metacharacters of Python `re` other than `.`; a pattern containing
one of these outside the wildcard token is modelled as the unsupported /
malformed case (the code catches `re.error` and returns `[]`). -/
def specialChar (c : Char) : Bool :=
  c = '\\' || c = '(' || c = ')' || c = '[' || c = ']' || c = '\x7b' ||
  c = '\x7d' || c = '*' || c = '+' || c = '?' || c = '|' || c = '^' || c = '$'

/-- A character that the search-pattern language matches purely literally. -/
def ordinaryChar (c : Char) : Bool :=
  !(specialChar c) && (c != '.')

/-- Whether the character list contains the two-character wildcard token. -/
def hasWildcardToken : List Char → Bool
  | [] => false
  | '\x7b' :: '#' :: '\x7d' :: _ => true
  | _ :: rest => hasWildcardToken rest

/-- Compilation of a search pattern, modelling
`re.compile(pattern.replace('{#}', r'(\d+)'))`: the wildcard token becomes a
digit run, `.` stays the any-character metacharacter, ordinary characters are
literals, and remaining metacharacters yield the failure case `none`. -/
def compileToks : List Char → Option (List RTok)
  | [] => some []
  | c :: rest =>
    if c = '\x7b' then
      match rest with
      | '#' :: '\x7d' :: rest2 => (compileToks rest2).map (fun ts => RTok.digitRun :: ts)
      | _ => none
    else if c = '.' then
      (compileToks rest).map (fun ts => RTok.dot :: ts)
    else if specialChar c then
      none
    else
      (compileToks rest).map (fun ts => RTok.lit c :: ts)

/-- Greedy-with-backtracking search for the digit run: try consuming `k` digits
(from the longest possible run downwards, as Python's backtracking engine
does for `(\d+)`) and match the rest of the tokens after them. -/
def tryDigits (f : List Char → Option Nat) (xs : List Char) : Nat → Option Nat
  | 0 => none
  | k + 1 =>
    match f (List.drop (k + 1) xs) with
    | some m => some (k + 1 + m)
    | none => tryDigits f xs k

/-- Match the compiled tokens against a prefix of the character list,
returning the number of characters consumed (case-insensitive, as the code
passes `re.IGNORECASE`; `.` does not match a newline, as in Python). -/
def matchToks : List RTok → List Char → Option Nat
  | [] => fun _ => some 0
  | RTok.lit c :: ts => fun chars =>
      match chars with
      | [] => none
      | x :: xs => if c.toLower = x.toLower then (matchToks ts xs).map (· + 1) else none
  | RTok.dot :: ts => fun chars =>
      match chars with
      | [] => none
      | x :: xs => if x = '\n' then none else (matchToks ts xs).map (· + 1)
  | RTok.digitRun :: ts => fun xs =>
      tryDigits (matchToks ts) xs ((xs.takeWhile Char.isDigit).length)

/-- One scan of `re.finditer`: try a match at each position left to right and
continue after the consumed characters of each (non-empty) match, collecting
`match.group(0)` (the original-case slice of the text).  The fuel argument is
the remaining text length, which bounds the number of steps. -/
def findIterAux (toks : List RTok) : Nat → List Char → List String
  | 0, _ => []
  | _ + 1, [] => []
  | fuel + 1, x :: xs =>
    match matchToks toks (x :: xs) with
    | some (n + 1) => String.mk (List.take (n + 1) (x :: xs)) ::
        findIterAux toks fuel (List.drop n xs)
    | _ => findIterAux toks fuel xs

/-- All non-overlapping matches of the compiled tokens in the text,
left to right. -/
def findIter (toks : List RTok) (l : List Char) : List String :=
  findIterAux toks l.length l

/-- Embedding of `extract_pattern_match(text, pattern)` (processor.py 13-40):
empty text or pattern returns `[]` (the falsy guard), a malformed pattern
returns `[]` (the `except` branch), otherwise all case-insensitive
non-overlapping matches are returned in order. -/
def extract_pattern_match (text pattern : String) : List String :=
  if text = "" ∨ pattern = "" then []
  else
    match compileToks pattern.toList with
    | none => []
    | some toks => findIter toks text.toList

/-! ## Spec-side definition: case-insensitive plain substring search -/

/-- Case-insensitive prefix test on character lists. -/
def charsPrefixCI : List Char → List Char → Bool
  | [], _ => true
  | _ :: _, [] => false
  | c :: cs, x :: xs => if c.toLower = x.toLower then charsPrefixCI cs xs else false

/-- One scan of a plain substring search: at each position test whether the
(non-empty) pattern is a case-insensitive prefix of the remaining text; on a
hit, record the original-case slice and continue after it. -/
def subsearchAux (p : Char) (ps : List Char) : Nat → List Char → List String
  | 0, _ => []
  | _ + 1, [] => []
  | fuel + 1, x :: xs =>
    if charsPrefixCI (p :: ps) (x :: xs) then
      String.mk (List.take (ps.length + 1) (x :: xs)) ::
        subsearchAux p ps fuel (List.drop ps.length xs)
    else
      subsearchAux p ps fuel xs

/-- Modelled from the spec: the "case-insensitive plain substring search"
that claim C3 compares `extract_pattern_match` against — every non-overlapping
occurrence of the pattern in the text, left to right, ignoring case. -/
def plainSubstringSearchCI (text pattern : String) : List String :=
  match pattern.toList with
  | [] => []
  | p :: ps => subsearchAux p ps text.toList.length text.toList

/-! ## Metadata-driven column resolution (processor.py 153-180) -/

/-- Embedding of the per-pattern column resolution in `process_videos`
(lines 158-178): first match in the title if any, else first match in the
description if any, else the empty string. -/
def resolveColumn (title description pattern : String) : String :=
  match extract_pattern_match title pattern with
  | m :: _ => m
  | [] =>
    match extract_pattern_match description pattern with
    | m :: _ => m
    | [] => ""

/-! ## Template rendering (`helpers.py` 5-21, 38-47) -/

/-- Embedding of `format_title` (helpers.py 5-12): replace every occurrence of
the number placeholder and then of the original-URL placeholder. -/
def format_title (template : String) (number : Int) (original_url : String) : String :=
  (template.replace "\x7bnumber\x7d" (toString number)).replace "\x7boriginalUrl\x7d" original_url

/-- Embedding of `format_description` (helpers.py 14-21), identical logic. -/
def format_description (template : String) (number : Int) (original_url : String) : String :=
  (template.replace "\x7bnumber\x7d" (toString number)).replace "\x7boriginalUrl\x7d" original_url

/-- Characters removed by `clean_filename` (helpers.py line 41). -/
def invalidFilenameChar (c : Char) : Bool :=
  c = '<' || c = '>' || c = ':' || c = '"' || c = '/' || c = '\\' ||
  c = '|' || c = '?' || c = '*'

/-- Characters stripped from both ends by `filename.strip('. ')`. -/
def stripDotSpace (c : Char) : Bool := c = '.' || c = ' '

/-- Embedding of `clean_filename` (helpers.py 38-47): drop invalid characters,
strip leading/trailing dots and spaces, default to `unnamed` when empty. -/
def clean_filename (filename : String) : String :=
  let kept := filename.toList.filter (fun c => !(invalidFilenameChar c))
  let stripped := ((kept.dropWhile stripDotSpace).reverse.dropWhile stripDotSpace).reverse
  if stripped.isEmpty then "unnamed" else String.mk stripped

/-! ## Schedule calculator (processor.py 132-137)

Datetimes are modelled as rational numbers of hours: `base` stands for
`est_tz.localize(datetime.combine(start_date, start_time))` and adding `h`
stands for `+ timedelta(hours=h)`. -/

/-- Embedding of the scheduled-time computation
`base_time + timedelta(hours=(i - 1) * hours_between)` for loop index `i`. -/
def schedTimestamp (base hours_between : ℚ) (i : Nat) : ℚ :=
  base + ((i : ℚ) - 1) * hours_between

/-! ## Batch orchestrator (`process_videos`, processor.py 82-215) -/

/-- One batch entry: `video.get('youtube_url')` may be absent. -/
structure Video where
  youtube_url : Option String

/-- The resolvable URL of an item, `none` when the key is missing or the value
is falsy (the code's `if not video_url: continue`). -/
def urlOf (v : Video) : Option String :=
  match v.youtube_url with
  | some u => if u = "" then none else some u
  | none => none

/-- Whether an item is attempted (has a resolvable URL). -/
def hasUrl (v : Video) : Bool := (urlOf v).isSome

/-- The `schedule_config` dictionary: the localized base instant and the gap
between consecutive slots, in hours. -/
structure ScheduleConfig where
  base : ℚ
  hours_between : ℚ

/-- One entry of `config['search_patterns']`. -/
structure SearchPattern where
  pattern : String
  column_name : String

/-- The `config` dictionary passed to `process_videos`; `template_number` is
the mutable counter. -/
structure Config where
  template_number : Int
  title_template : String
  description_template : String
  schedule_enabled : Bool
  schedule_config : ScheduleConfig
  search_patterns : List SearchPattern
  append_enabled : Bool
  append_video_path : Option String

/-- Observable record of one attempted item (an iteration of the loop body
that passed the URL guard). -/
structure Attempt where
  fullIndex : Nat
  startingNumber : Int
  title : String
  description : String
  sched : Option ℚ
  url : String
  columns : List (String × String)
  outcome : Option String

/-- One `processed_video` dictionary: the fixed columns plus one dynamic
column per configured search pattern, in configuration order.  The scheduled
date is kept as the timestamp itself (`none` = `'Immediate'`). -/
structure Row where
  startingNumber : Int
  scheduledDate : Option ℚ
  originalUrl : String
  uploadedUrl : String
  columns : List (String × String)

/-- Result of a batch run: the report rows, the trace of attempted items in
encounter order, and the final configuration. -/
structure BatchResult where
  rows : List Row
  trace : List Attempt
  config : Config

/-- Embedding of the `for i, video in enumerate(videos, 1)` loop body of
`process_videos`: `fetch` models `get_video_info`, `pipeline` models
`process_single_video` (called with the same arguments as in the source,
privacy fixed to `private`); items without a resolvable URL are skipped
(`continue`) before any state is touched; the template number is incremented
once per attempted item regardless of outcome; a row is appended only when
the pipeline returns a video id. -/
def processLoop (fetch : String → String × String)
    (pipeline : String → String → String → String → String → Option ℚ → Bool →
      Option String → Nat → Option String)
    (output_dir : String) : List Video → Nat → Config → BatchResult
  | [], _, cfg => ⟨[], [], cfg⟩
  | v :: rest, i, cfg =>
    match urlOf v with
    | none => processLoop fetch pipeline output_dir rest (i + 1) cfg
    | some video_url =>
      let info := fetch video_url
      let current_number := cfg.template_number
      let title := format_title cfg.title_template current_number video_url
      let description := format_description cfg.description_template current_number video_url
      let scheduled_time : Option ℚ :=
        if cfg.schedule_enabled then
          some (schedTimestamp cfg.schedule_config.base cfg.schedule_config.hours_between i)
        else none
      let columns := cfg.search_patterns.map
        (fun sp => (sp.column_name, resolveColumn info.1 info.2 sp.pattern))
      let success := pipeline video_url output_dir title description "private"
        scheduled_time cfg.append_enabled cfg.append_video_path i
      let att : Attempt :=
        ⟨i, current_number, title, description, scheduled_time, video_url, columns, success⟩
      let cfg2 := { cfg with template_number := cfg.template_number + 1 }
      let restRes := processLoop fetch pipeline output_dir rest (i + 1) cfg2
      { rows :=
          (match success with
           | some vid =>
             [⟨current_number, scheduled_time, video_url,
                "https://youtube.com/watch?v=" ++ vid, columns⟩]
           | none => []) ++ restRes.rows
        trace := att :: restRes.trace
        config := restRes.config }

/-- Embedding of `process_videos` (processor.py 82-215): run the loop from
index 1 over the whole batch. -/
def process_videos (fetch : String → String × String)
    (pipeline : String → String → String → String → String → Option ℚ → Bool →
      Option String → Nat → Option String)
    (output_dir : String) (videos : List Video) (cfg : Config) : BatchResult :=
  processLoop fetch pipeline output_dir videos 1 cfg

/-- The report row that a successful attempt contributes. -/
def mkRow (a : Attempt) : Row :=
  { startingNumber := a.startingNumber
    scheduledDate := a.sched
    originalUrl := a.url
    uploadedUrl :=
      match a.outcome with
      | some vid => "https://youtube.com/watch?v=" ++ vid
      | none => "Processing"
    columns := a.columns }

/-- The 1-based positions, counted over the whole batch, of the items that
have a resolvable URL (spec-side definition used to state which indices the
attempted items receive). -/
def attemptedPositionsFrom (i : Nat) : List Video → List Nat
  | [] => []
  | v :: rest =>
    if hasUrl v then i :: attemptedPositionsFrom (i + 1) rest
    else attemptedPositionsFrom (i + 1) rest

/-- Positions of attempted items counted from 1 over the full batch. -/
def attemptedPositions (videos : List Video) : List Nat :=
  attemptedPositionsFrom 1 videos

/-- Modelled from the spec (claim C1's reading of the schedule index): the
1-based rank of each attempted item counted among attempted items only. -/
def attemptedRanksFrom (i : Nat) : List Video → List Nat
  | [] => []
  | v :: rest =>
    if hasUrl v then i :: attemptedRanksFrom (i + 1) rest
    else attemptedRanksFrom i rest

/-! ## Per-item pipeline (`process_single_video`, processor.py 309-396) -/

/-- External collaborators of `process_single_video`: the filesystem check
`os.path.exists`, the downloader `download_video(url, output_dir)`, the clip
loader `VideoFileClip(path).size` (`none` models an exception), the outcome of
`resize_video_opencv`, the outcome of the concatenate-and-write step (`false`
models an exception inside the `try` block), and the publisher
`upload_video(service, path, title, description, privacy, scheduled)`. -/
structure PipeEnv where
  fileExists : String → Bool
  download : String → String → Option String
  clipSize : String → Option (Nat × Nat)
  resizeOk : Bool
  concatOk : Bool
  upload : String → String → String → String → Option ℚ → Option String

/-- Outcome of one `process_single_video` call, together with which external
collaborators were invoked. -/
structure PipeOutcome where
  result : Option String
  downloaderCalled : Bool
  publisherCalled : Bool

/-- Embedding of the append block (processor.py 322-380): load both clips'
dimensions (an exception returns `False` for the whole call), resize the
append clip when the resolutions differ (`return False` on resize failure),
then concatenate into `final_<filename>`; any exception there also fails the
call.  Returns the final video path on success. -/
def appendStep (env : PipeEnv) (video_path output_dir video_filename append_path : String) :
    Option String :=
  match env.clipSize video_path, env.clipSize append_path with
  | some (mw, mh), some (aw, ah) =>
    if mw ≠ aw ∨ mh ≠ ah then
      if env.resizeOk then
        if env.concatOk then some (output_dir ++ "/final_" ++ video_filename) else none
      else none
    else
      if env.concatOk then some (output_dir ++ "/final_" ++ video_filename) else none
  | _, _ => none

/-- Embedding of `process_single_video` (processor.py 309-396): compute the
local filename `clean_filename(f"video_{video_number}.mp4")`; when that file
already exists, fall through to the final `return False` without calling any
collaborator; otherwise download (failure returns `False`), optionally run the
append block, and upload with privacy `scheduled` demoted to `private`. -/
def process_single_video (env : PipeEnv) (video_url output_dir title description
    privacy_status : String) (scheduled_time : Option ℚ) (append_enabled : Bool)
    (append_video_path : Option String) (video_number : Nat) : PipeOutcome :=
  let video_filename := clean_filename ("video_" ++ toString video_number ++ ".mp4")
  let video_path := output_dir ++ "/" ++ video_filename
  if env.fileExists video_path then ⟨none, false, false⟩
  else
    match env.download video_url output_dir with
    | none => ⟨none, true, false⟩
    | some dl_path =>
      let appendActive := append_enabled &&
        (match append_video_path with
         | some p => !(p = "") && env.fileExists p
         | none => false)
      let afterAppend :=
        if appendActive then
          appendStep env dl_path output_dir video_filename
            (match append_video_path with | some p => p | none => "")
        else some dl_path
      match afterAppend with
      | none => ⟨none, true, false⟩
      | some final_path =>
        let upload_privacy := if privacy_status = "scheduled" then "private" else privacy_status
        match env.upload final_path title description upload_privacy scheduled_time with
        | none => ⟨none, true, true⟩
        | some vid => ⟨some vid, true, true⟩

/-! ## Publisher (`upload_video`, youtube_api.py 110-198) -/

/-- Observable outcome of one `upload_video` call: the privacy status placed
in the insert request body, the `publishAt` field (the scheduled instant, when
present), whether the separate `videos().update` call was issued, the privacy
status the remote object ends up with (`none` when the insert failed), and the
returned value. -/
structure UploadOutcome where
  insertPrivacy : String
  publishAt : Option ℚ
  updateCalled : Bool
  effectivePrivacy : Option String
  result : Option String

/-- Embedding of `upload_video` (youtube_api.py 110-198).  `insertResult`
models the resumable insert (`none` = an exception caught by the outer
handler, returning `None`); `updateSucceeds` models the `videos().update`
call, whose failure is swallowed by the inner `except` (a warning only).  The
insert body always carries `privacyStatus: 'private'`; for a scheduled upload
no update is issued (the platform flips visibility at `publishAt`); for a
non-scheduled upload with a non-private requested status the update is
issued, and the video id is returned whether or not it succeeded. -/
def upload_video (insertResult : Option String) (updateSucceeds : Bool)
    (privacy_status : String) (scheduled_time : Option ℚ) : UploadOutcome :=
  match insertResult with
  | none =>
    { insertPrivacy := "private", publishAt := scheduled_time, updateCalled := false,
      effectivePrivacy := none, result := none }
  | some vid =>
    match scheduled_time with
    | some _ =>
      { insertPrivacy := "private", publishAt := scheduled_time, updateCalled := false,
        effectivePrivacy := some "private", result := some vid }
    | none =>
      if privacy_status ≠ "private" then
        { insertPrivacy := "private", publishAt := none, updateCalled := true,
          effectivePrivacy := some (if updateSucceeds then privacy_status else "private"),
          result := some vid }
      else
        { insertPrivacy := "private", publishAt := none, updateCalled := false,
          effectivePrivacy := some "private", result := some vid }

/-! ## Video transform (`resize_video_opencv`, processor.py 231-307) -/

/-- The geometry computed at processor.py 243-254: scale factor, scaled
dimensions (Python `int()` truncation of a non-negative value is `floor`),
and the centering offsets (`//` on the non-negative difference). -/
structure LetterboxGeom where
  new_width : Nat
  new_height : Nat
  pad_left : Nat
  pad_top : Nat

/-- Embedding of the letterbox geometry of `resize_video_opencv`:
`scale = min(target_width/orig_width, target_height/orig_height)`,
`new = int(orig * scale)`, `pad = (target - new) // 2`. -/
def letterboxGeometry (orig_width orig_height target_width target_height : Nat) :
    LetterboxGeom :=
  let scale : ℚ := min ((target_width : ℚ) / (orig_width : ℚ))
    ((target_height : ℚ) / (orig_height : ℚ))
  let new_width : Nat := (⌊(orig_width : ℚ) * scale⌋).toNat
  let new_height : Nat := (⌊(orig_height : ℚ) * scale⌋).toNat
  { new_width := new_width, new_height := new_height,
    pad_left := (target_width - new_width) / 2,
    pad_top := (target_height - new_height) / 2 }

/-- A video frame: dimensions plus a BGR pixel function. -/
structure Frame where
  width : Nat
  height : Nat
  pix : Nat → Nat → Nat × Nat × Nat

/-- Embedding of the per-frame composition (processor.py 268-277): a black
canvas `np.zeros((target_height, target_width, 3))` with the resized frame
written into the rectangle starting at `(pad_left, pad_top)`. -/
def letterboxFrame (resized : Frame) (target_width target_height pad_left pad_top : Nat) :
    Frame :=
  { width := target_width, height := target_height,
    pix := fun x y =>
      if pad_left ≤ x ∧ x < pad_left + resized.width ∧
          pad_top ≤ y ∧ y < pad_top + resized.height then
        resized.pix (x - pad_left) (y - pad_top)
      else (0, 0, 0) }

/-- Embedding of the frame loop of `resize_video_opencv` (processor.py
260-277): every input frame is resized to the computed dimensions (`resize`
models `cv2.resize`) and composed onto the black target-sized canvas. -/
def resize_video_opencv (resize : Nat → Nat → Frame → Frame) (frames : List Frame)
    (orig_width orig_height target_width target_height : Nat) : List Frame :=
  let g := letterboxGeometry orig_width orig_height target_width target_height
  frames.map (fun f =>
    letterboxFrame (resize g.new_width g.new_height f) target_width target_height
      g.pad_left g.pad_top)

/-! ## Theorems -/

/-- C6: for every fixed base, zone and positive `hours_between`, the scheduled
timestamp is monotonically non-decreasing in the index, consecutive indices
are exactly `hours_between` hours apart, and the value is the localized base
plus `(index - 1) * hours_between` hours. -/
theorem sched_timestamp_monotone_spacing (base hours_between : ℚ)
    (hpos : 0 < hours_between) (i : Nat) (_hi : 1 ≤ i) :
    schedTimestamp base hours_between i ≤ schedTimestamp base hours_between (i + 1) ∧
    schedTimestamp base hours_between (i + 1) - schedTimestamp base hours_between i
      = hours_between ∧
    schedTimestamp base hours_between i = base + ((i : ℚ) - 1) * hours_between := by
  refine ⟨?_, ?_, rfl⟩
  · unfold schedTimestamp
    push_cast
    nlinarith [hpos]
  · unfold schedTimestamp
    push_cast
    ring

/-- Witness for C6 at base 0, spacing 6, index 1. -/
theorem sched_timestamp_monotone_spacing_w :
    schedTimestamp 0 6 1 ≤ schedTimestamp 0 6 (1 + 1) ∧
    schedTimestamp 0 6 (1 + 1) - schedTimestamp 0 6 1 = 6 ∧
    schedTimestamp 0 6 1 = 0 + ((1 : ℚ) - 1) * 6 :=
  sched_timestamp_monotone_spacing 0 6 (by norm_num) 1 (le_refl 1)

/-- C9: `extract_pattern_match` is total at its interface — it returns the
empty list when the text is empty, when the pattern is empty, and when the
pattern fails to compile (the modelled `re.error` case), instead of
propagating an exception. -/
theorem extract_pattern_total_empty_malformed (text pattern : String) :
    (text = "" → extract_pattern_match text pattern = []) ∧
    (pattern = "" → extract_pattern_match text pattern = []) ∧
    (compileToks pattern.toList = none → extract_pattern_match text pattern = []) := by
  refine ⟨fun h => by simp [extract_pattern_match, h],
          fun h => by simp [extract_pattern_match, h],
          fun h => ?_⟩
  unfold extract_pattern_match
  rw [h]
  split
  · rfl
  · rfl

/-- Witness for C9: an unbalanced parenthesis pattern (a real `re.error`),
an empty text, and an empty pattern all yield the empty list. -/
theorem extract_pattern_total_empty_malformed_w :
    extract_pattern_match "x" "(" = [] ∧
    extract_pattern_match "" "A\x7b#\x7dB" = [] ∧
    extract_pattern_match "x" "" = [] :=
  ⟨(extract_pattern_total_empty_malformed "x" "(").2.2 (by decide),
   (extract_pattern_total_empty_malformed "" "A\x7b#\x7dB").1 rfl,
   (extract_pattern_total_empty_malformed "x" "").2.1 rfl⟩

/-- Every attempted item's dynamic columns are resolved from its fetched
title and description with title precedence, one per configured pattern in
configuration order. -/
lemma processLoop_trace_columns (fetch : String → String × String)
    (pipeline : String → String → String → String → String → Option ℚ → Bool →
      Option String → Nat → Option String) (od : String) :
    ∀ (videos : List Video) (i : Nat) (cfg : Config),
      ∀ a ∈ (processLoop fetch pipeline od videos i cfg).trace,
        a.columns = cfg.search_patterns.map
          (fun sp => (sp.column_name,
            resolveColumn (fetch a.url).1 (fetch a.url).2 sp.pattern)) := by
  intro videos
  induction videos with
  | nil => intro i cfg a ha; simp [processLoop] at ha
  | cons v rest ih =>
    intro i cfg a ha
    cases h : urlOf v with
    | none =>
      rw [processLoop, h] at ha
      exact ih (i + 1) cfg a ha
    | some url =>
      rw [processLoop, h] at ha
      rcases List.mem_cons.mp ha with rfl | hmem
      · rfl
      · exact ih (i + 1) { cfg with template_number := cfg.template_number + 1 } a hmem

/-- C4: for every configured pattern, the resolved column value is the first
match in the fetched title when the title matches, otherwise the first match
in the fetched description, otherwise the empty string — and the description
is never consulted when the title matches; every attempted item's row columns
are produced exactly this way from its fetched metadata. -/
theorem column_resolution_title_precedence (title description pattern : String)
    (fetch : String → String × String)
    (pipeline : String → String → String → String → String → Option ℚ → Bool →
      Option String → Nat → Option String)
    (output_dir : String) (videos : List Video) (cfg : Config) :
    (∀ m ms, extract_pattern_match title pattern = m :: ms →
      resolveColumn title description pattern = m) ∧
    (extract_pattern_match title pattern = [] →
      ∀ m ms, extract_pattern_match description pattern = m :: ms →
        resolveColumn title description pattern = m) ∧
    (extract_pattern_match title pattern = [] →
      extract_pattern_match description pattern = [] →
      resolveColumn title description pattern = "") ∧
    (∀ a ∈ (process_videos fetch pipeline output_dir videos cfg).trace,
      a.columns = cfg.search_patterns.map
        (fun sp => (sp.column_name,
          resolveColumn (fetch a.url).1 (fetch a.url).2 sp.pattern))) := by
  refine ⟨fun m ms h => by simp [resolveColumn, h],
          fun h0 m ms h => by simp [resolveColumn, h0, h],
          fun h0 h1 => by simp [resolveColumn, h0, h1],
          processLoop_trace_columns fetch pipeline output_dir videos 1 cfg⟩

/-- Witness for C4 on the spec's scenario: pattern `F{#}`, title containing
`F12`, description containing `F99`. -/
theorem column_resolution_title_precedence_w :
    resolveColumn "Amazing F12 clip" "see F99" "F\x7b#\x7d" = "F12" ∧
    resolveColumn "no match here" "see F99" "F\x7b#\x7d" = "F99" ∧
    resolveColumn "no match" "nothing" "F\x7b#\x7d" = "" := by
  have h1 := column_resolution_title_precedence "Amazing F12 clip" "see F99" "F\x7b#\x7d"
    (fun _ => ("", "")) (fun _ _ _ _ _ _ _ _ _ => none) "" []
    ⟨0, "", "", false, ⟨0, 0⟩, [], false, none⟩
  have h2 := column_resolution_title_precedence "no match here" "see F99" "F\x7b#\x7d"
    (fun _ => ("", "")) (fun _ _ _ _ _ _ _ _ _ => none) "" []
    ⟨0, "", "", false, ⟨0, 0⟩, [], false, none⟩
  have h3 := column_resolution_title_precedence "no match" "nothing" "F\x7b#\x7d"
    (fun _ => ("", "")) (fun _ _ _ _ _ _ _ _ _ => none) "" []
    ⟨0, "", "", false, ⟨0, 0⟩, [], false, none⟩
  exact ⟨h1.1 "F12" [] (by decide),
         h2.2.1 (by decide) "F99" [] (by decide),
         h3.2.2.1 (by decide) (by decide)⟩

/-- C5: when the computed local file for the item already exists in the
output directory, the per-item pipeline calls neither the downloader nor the
publisher and returns failure. -/
theorem existing_file_skips_download_and_publish
    (env : PipeEnv) (video_url output_dir title description privacy_status : String)
    (scheduled_time : Option ℚ) (append_enabled : Bool) (append_video_path : Option String)
    (video_number : Nat)
    (h : env.fileExists (output_dir ++ "/" ++
      clean_filename ("video_" ++ toString video_number ++ ".mp4")) = true) :
    process_single_video env video_url output_dir title description privacy_status
      scheduled_time append_enabled append_video_path video_number =
      ⟨none, false, false⟩ := by
  simp [process_single_video, h]

/-- Witness for C5: an environment whose filesystem reports every path as
existing makes the pipeline return failure with no collaborator calls. -/
theorem existing_file_skips_download_and_publish_w :
    process_single_video
      ⟨fun _ => true, fun _ _ => some "p", fun _ => none, false, false,
        fun _ _ _ _ _ => some "v"⟩
      "u" "out" "t" "d" "private" none false none 1 = ⟨none, false, false⟩ :=
  existing_file_skips_download_and_publish _ "u" "out" "t" "d" "private" none false none 1 rfl

/-- C10: the insert request always carries privacy status `private`; a
non-scheduled request with a non-private status triggers the separate status
update; and when that update fails the call still returns the video id while
the remote object remains private. -/
theorem upload_video_private_first_update_swallowed
    (insertResult : Option String) (updateSucceeds : Bool) (privacy_status : String)
    (scheduled_time : Option ℚ) :
    (upload_video insertResult updateSucceeds privacy_status scheduled_time).insertPrivacy
      = "private" ∧
    (scheduled_time = none → privacy_status ≠ "private" → insertResult ≠ none →
      (upload_video insertResult updateSucceeds privacy_status scheduled_time).updateCalled
        = true) ∧
    (∀ vid, insertResult = some vid → scheduled_time = none →
      privacy_status ≠ "private" → updateSucceeds = false →
      (upload_video insertResult updateSucceeds privacy_status scheduled_time).result
          = some vid ∧
        (upload_video insertResult updateSucceeds privacy_status
          scheduled_time).effectivePrivacy = some "private") := by
  refine ⟨?_, ?_, ?_⟩
  · cases insertResult <;> cases scheduled_time <;>
      first
      | rfl
      | (simp only [upload_video]; split_ifs <;> rfl)
  · intro h1 h2 h3
    cases insertResult with
    | none => exact absurd rfl h3
    | some vid => subst h1; simp [upload_video, h2]
  · intro vid hv h1 h2 h3
    subst hv; subst h1; subst h3
    simp [upload_video, h2]

/-- Witness for C10: a successful insert with requested status `public`,
scheduled time absent, and a failing update still returns the id and leaves
the object private. -/
theorem upload_video_private_first_update_swallowed_w :
    (upload_video (some "v") false "public" none).insertPrivacy = "private" ∧
    (upload_video (some "v") false "public" none).updateCalled = true ∧
    (upload_video (some "v") false "public" none).result = some "v" ∧
    (upload_video (some "v") false "public" none).effectivePrivacy = some "private" := by
  have h := upload_video_private_first_update_swallowed (some "v") false "public" none
  exact ⟨h.1, h.2.1 rfl (by decide) (by decide),
         (h.2.2 "v" rfl rfl (by decide) rfl).1,
         (h.2.2 "v" rfl rfl (by decide) rfl).2⟩

/-- The scaled dimension never exceeds the corresponding target dimension:
`⌊o * min (t/o) s⌋ ≤ t` for positive `o`. -/
lemma floor_scaled_le (o t : Nat) (s : ℚ) (ho : 0 < o) (hs : s ≤ (t : ℚ) / (o : ℚ)) :
    (⌊(o : ℚ) * s⌋).toNat ≤ t := by
  have ho' : (0 : ℚ) < (o : ℚ) := by exact_mod_cast ho
  have h1 : (o : ℚ) * s ≤ (t : ℚ) := by
    have h2 : (o : ℚ) * s ≤ (o : ℚ) * ((t : ℚ) / (o : ℚ)) :=
      mul_le_mul_of_nonneg_left hs (le_of_lt ho')
    have h3 : (o : ℚ) * ((t : ℚ) / (o : ℚ)) = (t : ℚ) := by
      field_simp
    linarith
  have h4 : ⌊(o : ℚ) * s⌋ ≤ (t : ℤ) := by
    have := Int.floor_le_floor h1
    simpa using this
  exact Int.toNat_le.mpr h4

/-- C8: for every source clip and target box, the letterbox transform scales
by `min(target_w/src_w, target_h/src_h)`, truncates the scaled dimensions,
centers with offsets `(target - new) // 2`, the content box fits inside the
canvas, and every output frame has exactly the target dimensions. -/
theorem letterbox_geometry_spec (orig_width orig_height target_width target_height : Nat)
    (resize : Nat → Nat → Frame → Frame) (frames : List Frame)
    (how : 0 < orig_width) (hoh : 0 < orig_height) :
    (letterboxGeometry orig_width orig_height target_width target_height).new_width =
      (⌊(orig_width : ℚ) * min ((target_width : ℚ) / (orig_width : ℚ))
        ((target_height : ℚ) / (orig_height : ℚ))⌋).toNat ∧
    (letterboxGeometry orig_width orig_height target_width target_height).new_height =
      (⌊(orig_height : ℚ) * min ((target_width : ℚ) / (orig_width : ℚ))
        ((target_height : ℚ) / (orig_height : ℚ))⌋).toNat ∧
    (letterboxGeometry orig_width orig_height target_width target_height).pad_left =
      (target_width -
        (letterboxGeometry orig_width orig_height target_width target_height).new_width) / 2 ∧
    (letterboxGeometry orig_width orig_height target_width target_height).pad_top =
      (target_height -
        (letterboxGeometry orig_width orig_height target_width target_height).new_height) / 2 ∧
    (letterboxGeometry orig_width orig_height target_width target_height).new_width
      ≤ target_width ∧
    (letterboxGeometry orig_width orig_height target_width target_height).new_height
      ≤ target_height ∧
    (letterboxGeometry orig_width orig_height target_width target_height).pad_left +
      (letterboxGeometry orig_width orig_height target_width target_height).new_width
      ≤ target_width ∧
    (letterboxGeometry orig_width orig_height target_width target_height).pad_top +
      (letterboxGeometry orig_width orig_height target_width target_height).new_height
      ≤ target_height ∧
    (resize_video_opencv resize frames orig_width orig_height target_width
        target_height).map (fun f => (f.width, f.height)) =
      frames.map (fun _ => (target_width, target_height)) := by
  have hw : (letterboxGeometry orig_width orig_height target_width target_height).new_width
      ≤ target_width :=
    floor_scaled_le orig_width target_width _ how (min_le_left _ _)
  have hh : (letterboxGeometry orig_width orig_height target_width target_height).new_height
      ≤ target_height :=
    floor_scaled_le orig_height target_height _ hoh (min_le_right _ _)
  have hpl : (letterboxGeometry orig_width orig_height target_width target_height).pad_left
      ≤ target_width -
        (letterboxGeometry orig_width orig_height target_width target_height).new_width :=
    Nat.div_le_self _ 2
  have hpt : (letterboxGeometry orig_width orig_height target_width target_height).pad_top
      ≤ target_height -
        (letterboxGeometry orig_width orig_height target_width target_height).new_height :=
    Nat.div_le_self _ 2
  refine ⟨rfl, rfl, rfl, rfl, hw, hh, by omega, by omega, ?_⟩
  induction frames with
  | nil => rfl
  | cons f fs ihf =>
    have hstep : (resize_video_opencv resize (f :: fs) orig_width orig_height target_width
        target_height).map (fun fr => (fr.width, fr.height)) =
        (target_width, target_height) ::
          (resize_video_opencv resize fs orig_width orig_height target_width
            target_height).map (fun fr => (fr.width, fr.height)) := rfl
    rw [hstep, ihf, List.map_cons]

/-- Witness for C8 on the spec's scenario: a 640x480 clip letterboxed into a
1080x1920 target. -/
theorem letterbox_geometry_spec_w :
    (letterboxGeometry 640 480 1080 1920).new_width =
      (⌊(640 : ℚ) * min ((1080 : ℚ) / (640 : ℚ)) ((1920 : ℚ) / (480 : ℚ))⌋).toNat ∧
    (letterboxGeometry 640 480 1080 1920).new_height =
      (⌊(480 : ℚ) * min ((1080 : ℚ) / (640 : ℚ)) ((1920 : ℚ) / (480 : ℚ))⌋).toNat ∧
    (letterboxGeometry 640 480 1080 1920).pad_left =
      (1080 - (letterboxGeometry 640 480 1080 1920).new_width) / 2 ∧
    (letterboxGeometry 640 480 1080 1920).pad_top =
      (1920 - (letterboxGeometry 640 480 1080 1920).new_height) / 2 ∧
    (letterboxGeometry 640 480 1080 1920).new_width ≤ 1080 ∧
    (letterboxGeometry 640 480 1080 1920).new_height ≤ 1920 ∧
    (letterboxGeometry 640 480 1080 1920).pad_left +
      (letterboxGeometry 640 480 1080 1920).new_width ≤ 1080 ∧
    (letterboxGeometry 640 480 1080 1920).pad_top +
      (letterboxGeometry 640 480 1080 1920).new_height ≤ 1920 ∧
    (resize_video_opencv (fun w h _ => Frame.mk w h (fun _ _ => (0, 0, 0)))
        [Frame.mk 640 480 (fun _ _ => (0, 0, 0))] 640 480 1080 1920).map
      (fun f => (f.width, f.height)) =
      [Frame.mk 640 480 (fun _ _ => (0, 0, 0))].map (fun _ => (1080, 1920)) :=
  letterbox_geometry_spec 640 480 1080 1920
    (fun w h _ => Frame.mk w h (fun _ _ => (0, 0, 0)))
    [Frame.mk 640 480 (fun _ _ => (0, 0, 0))] (by norm_num) (by norm_num)

/-- The final template number equals the starting one plus the number of
items with a resolvable URL, for any starting index and configuration. -/
lemma processLoop_template_number (fetch : String → String × String)
    (pipeline : String → String → String → String → String → Option ℚ → Bool →
      Option String → Nat → Option String) (od : String) :
    ∀ (videos : List Video) (i : Nat) (cfg : Config),
      (processLoop fetch pipeline od videos i cfg).config.template_number =
        cfg.template_number + ((videos.filter (fun v => hasUrl v)).length : Int) := by
  intro videos
  induction videos with
  | nil => intro i cfg; simp [processLoop]
  | cons v rest ih =>
    intro i cfg
    cases h : urlOf v with
    | none =>
      have hv : hasUrl v = false := by simp [hasUrl, h]
      rw [processLoop, h]
      simp only [List.filter_cons, hv, Bool.false_eq_true, if_false]
      exact ih (i + 1) cfg
    | some url =>
      have hv : hasUrl v = true := by simp [hasUrl, h]
      rw [processLoop, h]
      have := ih (i + 1) { cfg with template_number := cfg.template_number + 1 }
      simp only [List.filter_cons, hv, if_true]
      rw [this]
      simp only [List.length_cons]
      push_cast
      ring

/-- C2: after a batch run, the final `template_number` equals its starting
value plus exactly the number of attempted items (those with a resolvable
URL), for every mix of per-item successes and failures. -/
theorem template_number_increment_per_attempt (fetch : String → String × String)
    (pipeline : String → String → String → String → String → Option ℚ → Bool →
      Option String → Nat → Option String)
    (output_dir : String) (videos : List Video) (cfg : Config) :
    (process_videos fetch pipeline output_dir videos cfg).config.template_number =
      cfg.template_number + ((videos.filter (fun v => hasUrl v)).length : Int) :=
  processLoop_template_number fetch pipeline output_dir videos 1 cfg

/-- The report rows of a run are exactly the successful attempts, in
encounter order. -/
lemma processLoop_rows_filter (fetch : String → String × String)
    (pipeline : String → String → String → String → String → Option ℚ → Bool →
      Option String → Nat → Option String) (od : String) :
    ∀ (videos : List Video) (i : Nat) (cfg : Config),
      (processLoop fetch pipeline od videos i cfg).rows =
        ((processLoop fetch pipeline od videos i cfg).trace.filter
          (fun a => a.outcome.isSome)).map mkRow := by
  intro videos
  induction videos with
  | nil => intro i cfg; rfl
  | cons v rest ih =>
    intro i cfg
    cases h : urlOf v with
    | none =>
      rw [processLoop, h]
      exact ih (i + 1) cfg
    | some url =>
      rw [processLoop, h]
      cases hs : pipeline url od
          (format_title cfg.title_template cfg.template_number url)
          (format_description cfg.description_template cfg.template_number url) "private"
          (if cfg.schedule_enabled then
            some (schedTimestamp cfg.schedule_config.base cfg.schedule_config.hours_between i)
          else none) cfg.append_enabled cfg.append_video_path i with
      | none =>
        simp only [hs, List.filter_cons, Option.isSome_none, Bool.false_eq_true, if_false,
          List.nil_append]
        exact ih (i + 1) { cfg with template_number := cfg.template_number + 1 }
      | some vid =>
        simp only [hs, List.filter_cons, Option.isSome_some, if_true, List.map_cons,
          List.singleton_append]
        exact congrArg₂ List.cons rfl
          (ih (i + 1) { cfg with template_number := cfg.template_number + 1 })

/-- C7: a row is appended to the batch report only when the item's pipeline
returns a published identifier; failed and skipped items contribute no row,
and the rows appear in the items' encounter order. -/
theorem report_rows_only_successes (fetch : String → String × String)
    (pipeline : String → String → String → String → String → Option ℚ → Bool →
      Option String → Nat → Option String)
    (output_dir : String) (videos : List Video) (cfg : Config) :
    (process_videos fetch pipeline output_dir videos cfg).rows =
      ((process_videos fetch pipeline output_dir videos cfg).trace.filter
        (fun a => a.outcome.isSome)).map mkRow :=
  processLoop_rows_filter fetch pipeline output_dir videos 1 cfg

/-- The loop indices recorded for attempted items are their 1-based positions
counted over the whole batch, skipped items included. -/
lemma processLoop_trace_indices (fetch : String → String × String)
    (pipeline : String → String → String → String → String → Option ℚ → Bool →
      Option String → Nat → Option String) (od : String) :
    ∀ (videos : List Video) (i : Nat) (cfg : Config),
      (processLoop fetch pipeline od videos i cfg).trace.map (fun a => a.fullIndex) =
        attemptedPositionsFrom i videos := by
  intro videos
  induction videos with
  | nil => intro i cfg; rfl
  | cons v rest ih =>
    intro i cfg
    cases h : urlOf v with
    | none =>
      have hv : hasUrl v = false := by simp [hasUrl, h]
      rw [processLoop, h, attemptedPositionsFrom]
      simp only [hv, Bool.false_eq_true, if_false]
      exact ih (i + 1) cfg
    | some url =>
      have hv : hasUrl v = true := by simp [hasUrl, h]
      rw [processLoop, h, attemptedPositionsFrom]
      simp only [hv, if_true, List.map_cons]
      exact congrArg₂ List.cons rfl
        (ih (i + 1) { cfg with template_number := cfg.template_number + 1 })

/-- When scheduling is enabled, every attempted item's scheduled time is the
localized base plus `(fullIndex - 1) * hours_between`, where `fullIndex` is
the recorded loop index. -/
lemma processLoop_trace_sched (fetch : String → String × String)
    (pipeline : String → String → String → String → String → Option ℚ → Bool →
      Option String → Nat → Option String) (od : String) :
    ∀ (videos : List Video) (i : Nat) (cfg : Config), cfg.schedule_enabled = true →
      ∀ a ∈ (processLoop fetch pipeline od videos i cfg).trace,
        a.sched = some (schedTimestamp cfg.schedule_config.base
          cfg.schedule_config.hours_between a.fullIndex) := by
  intro videos
  induction videos with
  | nil => intro i cfg _ a ha; simp [processLoop] at ha
  | cons v rest ih =>
    intro i cfg hen a ha
    cases h : urlOf v with
    | none =>
      rw [processLoop, h] at ha
      exact ih (i + 1) cfg hen a ha
    | some url =>
      rw [processLoop, h] at ha
      rcases List.mem_cons.mp ha with rfl | hmem
      · simp [hen]
      · exact ih (i + 1) { cfg with template_number := cfg.template_number + 1 } hen a hmem

/-- C1 corrected: the schedule index of an attempted item is its 1-based
position in the FULL batch (`enumerate(videos, 1)`), so a skipped item DOES
advance the index used in the `(index - 1) * hours_between` offset; each
attempted item's publish time is computed from that full-batch position. -/
theorem schedule_index_counts_full_batch (fetch : String → String × String)
    (pipeline : String → String → String → String → String → Option ℚ → Bool →
      Option String → Nat → Option String)
    (output_dir : String) (videos : List Video) (cfg : Config)
    (hen : cfg.schedule_enabled = true) :
    (process_videos fetch pipeline output_dir videos cfg).trace.map
        (fun a => a.fullIndex) = attemptedPositions videos ∧
    ∀ a ∈ (process_videos fetch pipeline output_dir videos cfg).trace,
      a.sched = some (schedTimestamp cfg.schedule_config.base
        cfg.schedule_config.hours_between a.fullIndex) :=
  ⟨processLoop_trace_indices fetch pipeline output_dir videos 1 cfg,
   processLoop_trace_sched fetch pipeline output_dir videos 1 cfg hen⟩

/-- Counterexample to C1 as stated: a batch whose first item has no
resolvable URL and whose second does, with scheduling enabled from base 0 at
6-hour spacing.  The sole attempted item is the first attempted one (rank 1,
so the claim demands offset `(1-1)*6 = 0`), yet its full-batch position is 2
and its recorded and reported schedule is hour 6, not hour 0. -/
theorem schedule_index_skipped_advances_cex :
    ((process_videos (fun _ => ("", "")) (fun _ _ _ _ _ _ _ _ _ => some "id") "out"
        [⟨none⟩, ⟨some "u"⟩]
        ⟨1, "T", "D", true, ⟨0, 6⟩, [], false, none⟩).trace.map
      (fun a => (a.fullIndex, a.sched)) = [(2, some (schedTimestamp 0 6 2))]) ∧
    attemptedRanksFrom 1 [⟨none⟩, ⟨some "u"⟩] = [1] ∧
    ((process_videos (fun _ => ("", "")) (fun _ _ _ _ _ _ _ _ _ => some "id") "out"
        [⟨none⟩, ⟨some "u"⟩]
        ⟨1, "T", "D", true, ⟨0, 6⟩, [], false, none⟩).rows.map
      (fun r => r.scheduledDate) = [some (schedTimestamp 0 6 2)]) ∧
    schedTimestamp 0 6 2 = 6 ∧ schedTimestamp 0 6 1 = 0 ∧ (6 : ℚ) ≠ 0 := by
  refine ⟨rfl, rfl, rfl, ?_, ?_, ?_⟩ <;> norm_num [schedTimestamp]

/-- Witness for C1 (amended) on a concrete batch with a skipped item: the
attempted items receive full-batch positions 1 and 3. -/
theorem schedule_index_counts_full_batch_w :
    (process_videos (fun _ => ("", "")) (fun _ _ _ _ _ _ _ _ _ => none) "o"
        [⟨some "a"⟩, ⟨none⟩, ⟨some "b"⟩]
        ⟨0, "", "", true, ⟨2, 3⟩, [], false, none⟩).trace.map
      (fun a => a.fullIndex) = attemptedPositions [⟨some "a"⟩, ⟨none⟩, ⟨some "b"⟩] :=
  (schedule_index_counts_full_batch (fun _ => ("", "")) (fun _ _ _ _ _ _ _ _ _ => none) "o"
    [⟨some "a"⟩, ⟨none⟩, ⟨some "b"⟩] ⟨0, "", "", true, ⟨2, 3⟩, [], false, none⟩ rfl).1

/-- A pattern of ordinary characters compiles to the list of its characters
as literal tokens. -/
lemma compileToks_ordinary : ∀ (l : List Char), (∀ c ∈ l, ordinaryChar c = true) →
    compileToks l = some (l.map RTok.lit) := by
  intro l
  induction l with
  | nil => intro _; rfl
  | cons c rest ih =>
    intro h
    have hc := h c (List.mem_cons_self c rest)
    simp only [ordinaryChar, Bool.and_eq_true, Bool.not_eq_true', bne_iff_ne, ne_eq] at hc
    obtain ⟨hspec, hdot⟩ := hc
    have hbrace : ¬(c = '\x7b') := by
      intro he
      subst he
      simp [specialChar] at hspec
    rw [compileToks.eq_def]
    dsimp only
    rw [if_neg hbrace, if_neg hdot, if_neg (by simp [hspec])]
    rw [ih (fun x hx => h x (List.mem_cons_of_mem c hx))]
    rfl

/-- Matching a list of literal tokens consumes exactly the pattern length
when the pattern is a case-insensitive prefix of the text, and fails
otherwise. -/
lemma matchToks_lits : ∀ (pat chars : List Char),
    matchToks (pat.map RTok.lit) chars =
      if charsPrefixCI pat chars then some pat.length else none := by
  intro pat
  induction pat with
  | nil => intro chars; simp [matchToks, charsPrefixCI]
  | cons c cs ih =>
    intro chars
    cases chars with
    | nil => simp [matchToks, charsPrefixCI]
    | cons x xs =>
      simp only [List.map_cons, matchToks, charsPrefixCI]
      by_cases hcx : c.toLower = x.toLower
      · rw [if_pos hcx, ih xs]
        simp only [if_pos hcx]
        by_cases hp : charsPrefixCI cs xs = true
        · rw [if_pos hp, if_pos hp]
          rfl
        · rw [if_neg hp, if_neg hp]
          rfl
      · rw [if_neg hcx]
        simp only [if_neg hcx]
        rfl

/-- The finditer scan over a purely-literal pattern coincides with the plain
substring scan, step by step. -/
lemma findIterAux_lits (p : Char) (ps : List Char) :
    ∀ (fuel : Nat) (l : List Char),
      findIterAux ((p :: ps).map RTok.lit) fuel l = subsearchAux p ps fuel l := by
  intro fuel
  induction fuel with
  | zero => intro l; rfl
  | succ n ih =>
    intro l
    cases l with
    | nil => rfl
    | cons x xs =>
      simp only [findIterAux, subsearchAux, matchToks_lits]
      by_cases hp : charsPrefixCI (p :: ps) (x :: xs)
      · rw [if_pos hp, if_pos hp]
        exact congrArg₂ List.cons rfl (ih (List.drop ps.length xs))
      · rw [if_neg hp, if_neg hp]
        exact ih xs

/-- C3 amended: a pattern with no wildcard token AND no regex metacharacter
(every character ordinary) behaves as a case-insensitive plain substring
search; characters other than the wildcard token are regex characters, not
literals, so the claim restricted to metacharacter-free patterns holds. -/
theorem extract_pattern_plain_substring (text pattern : String)
    (hne : pattern ≠ "") (hord : ∀ c ∈ pattern.toList, ordinaryChar c = true) :
    extract_pattern_match text pattern = plainSubstringSearchCI text pattern := by
  have hne2 : pattern.toList ≠ [] := by
    intro hnil
    exact hne (String.ext hnil)
  unfold extract_pattern_match plainSubstringSearchCI
  by_cases ht : text = ""
  · subst ht
    cases hpl : pattern.toList with
    | nil => exact absurd hpl hne2
    | cons p ps => simp [subsearchAux]
  · rw [if_neg (by simp [ht, hne])]
    rw [compileToks_ordinary pattern.toList hord]
    cases hpl : pattern.toList with
    | nil => exact absurd hpl hne2
    | cons p ps =>
      show findIter ((p :: ps).map RTok.lit) text.toList = _
      unfold findIter
      exact findIterAux_lits p ps text.toList.length text.toList

/-- Counterexample to C3 as stated: the pattern `.` contains no wildcard
token, yet `extract_pattern_match` treats it as the regex any-character and
matches `"a"`, while a plain substring search for `.` in `"a"` finds
nothing. -/
theorem extract_pattern_metachar_cex :
    hasWildcardToken ".".toList = false ∧
    extract_pattern_match "a" "." = ["a"] ∧
    plainSubstringSearchCI "a" "." = [] :=
  ⟨rfl, by decide, by decide⟩

/-- Witness for C3 (amended) on a wildcard-free, metacharacter-free pattern
with case-insensitive occurrences. -/
theorem extract_pattern_plain_substring_w :
    extract_pattern_match "xAbCaBc" "abc" = plainSubstringSearchCI "xAbCaBc" "abc" :=
  extract_pattern_plain_substring "xAbCaBc" "abc" (by decide) (by decide)
